import Mathlib

/-!
Shallow embedding of `src/Graph.h` (namespace `graph`): a generic directed
graph container `Graph<key_type, value_type, weight_type>` built on
`std::unordered_map`, with a nested `Node` class holding a value and an
edge map from target key to weight.

The two `std::unordered_map` members (`Graph::m_umap`, `Node::m_edge`) are
modelled as association lists with first-match lookup; key uniqueness is
maintained by the operations themselves (`insert` refuses duplicates,
`insert_or_assign` replaces in place), exactly as the C++ map does.
Throwing `GraphException("Key not found")` is modelled with `Except`.
Operations that mutate `*this` through an iterator return the updated
state explicitly.
-/

namespace GraphSpec

/-- Mirror of `graph::GraphException`: carries only the message string. -/
structure GraphException where
  message : String
deriving DecidableEq, Repr

/-- The one exception value the header ever throws. -/
def keyNotFound : GraphException := ⟨"Key not found"⟩

/-- Result of an operation that may `throw GraphException`. -/
abbrev GResult (α : Type) := Except GraphException α

instance {ε α : Type} [DecidableEq ε] [DecidableEq α] :
    DecidableEq (Except ε α)
  | .error a, .error b => decidable_of_iff (a = b) (by simp)
  | .error _, .ok _ => isFalse (by intro h; cases h)
  | .ok _, .error _ => isFalse (by intro h; cases h)
  | .ok a, .ok b => decidable_of_iff (a = b) (by simp)

/-- Predicate: `r` models a call that raised an exception. -/
def throws {α : Type} (r : GResult α) : Prop := ∃ e, r = Except.error e

instance {α : Type} (r : GResult α) : Decidable (throws r) := by
  cases r with
  | error e => exact isTrue ⟨e, rfl⟩
  | ok a => exact isFalse (by rintro ⟨e, h⟩; cases h)

section UMap

variable {Key : Type} [DecidableEq Key] {A : Type}

/-- Mirror of `std::unordered_map::find`, as first-match lookup in the entry list
(`end()` becomes `none`). -/
def umapFind : List (Key × A) → Key → Option A
  | [], _ => none
  | (k, a) :: rest, key => if k = key then some a else umapFind rest key

/-- Mirror of `std::unordered_map::insert({key, a})`: no effect when the key is
present; returns the entry the iterator points at and the success flag. -/
def umapInsert (m : List (Key × A)) (key : Key) (a : A) :
    List (Key × A) × A × Bool :=
  match umapFind m key with
  | some existing => (m, existing, false)
  | none => (m ++ [(key, a)], a, true)

/-- Replace the value stored at the first entry with the given key. -/
def umapReplace : List (Key × A) → Key → A → List (Key × A)
  | [], _, _ => []
  | (k, a) :: rest, key, b =>
    if k = key then (k, b) :: rest else (k, a) :: umapReplace rest key b

/-- Mirror of `std::unordered_map::insert_or_assign(key, a)`: overwrite in place when
present (flag `false`), append when absent (flag `true`). -/
def umapInsertOrAssign (m : List (Key × A)) (key : Key) (a : A) :
    List (Key × A) × A × Bool :=
  match umapFind m key with
  | some _ => (umapReplace m key a, a, false)
  | none => (m ++ [(key, a)], a, true)

end UMap

section GraphDef

variable (Key Value Weight : Type)

/-- Mirror of `Graph<...>::Node`: a value plus the edge map `m_edge`. -/
structure Node where
  m_value : Value
  m_edge : List (Key × Weight)
deriving Repr, DecidableEq

/-- Mirror of `Graph<key_type, value_type, weight_type>`: the node map. -/
structure Graph where
  m_umap : List (Key × Node Key Value Weight)
deriving Repr, DecidableEq

end GraphDef

namespace Node

variable {Key Value Weight : Type} [DecidableEq Key]

/-- Mirror of `explicit Node(value_type value)`: stores the value, edge map starts
default-constructed (empty). -/
def ofValue (value : Value) : Node Key Value Weight := ⟨value, []⟩

/-- Mirror of `Node::empty()`. -/
def empty (n : Node Key Value Weight) : Bool := n.m_edge.isEmpty

/-- Mirror of `Node::size()`. -/
def size (n : Node Key Value Weight) : Nat := n.m_edge.length

/-- Mirror of `Node::getvalue()`. -/
def getvalue (n : Node Key Value Weight) : Value := n.m_value

/-- Mirror of `Node::getedges()`. -/
def getedges (n : Node Key Value Weight) : List (Key × Weight) := n.m_edge

/-- Mirror of `Node::insert_edge(key, weight)`: `m_edge.insert({key, weight})`.
Returns the updated node, the weight at the entry the returned iterator
points to, and the success flag. -/
def insert_edge (n : Node Key Value Weight) (key : Key) (weight : Weight) :
    Node Key Value Weight × Weight × Bool :=
  let r := umapInsert n.m_edge key weight
  (⟨n.m_value, r.1⟩, r.2)

/-- Mirror of `Node::insert_or_assign_edge(key, weight)`:
`m_edge.insert_or_assign(key, weight)`. -/
def insert_or_assign_edge (n : Node Key Value Weight) (key : Key)
    (weight : Weight) : Node Key Value Weight × Weight × Bool :=
  let r := umapInsertOrAssign n.m_edge key weight
  (⟨n.m_value, r.1⟩, r.2)

end Node

namespace Graph

variable {Key Value Weight : Type} [DecidableEq Key]

/-- Mirror of `Graph::empty()`. -/
def empty (g : Graph Key Value Weight) : Bool := g.m_umap.isEmpty

/-- Mirror of `Graph::size()`. -/
def size (g : Graph Key Value Weight) : Nat := g.m_umap.length

/-- Mirror of `Graph::find(key)`: `m_umap.find(key)`; the end iterator is `none`,
otherwise the entry's node. -/
def find (g : Graph Key Value Weight) (key : Key) :
    Option (Node Key Value Weight) :=
  umapFind g.m_umap key

/-- Mirror of `Graph::at(key)` (`at` is reserved in Lean): the node at `key`, or
`GraphException("Key not found")` when `m_umap.find(key) == m_umap.end()`. -/
def at_key (g : Graph Key Value Weight) (key : Key) :
    GResult (Node Key Value Weight) :=
  match umapFind g.m_umap key with
  | none => .error keyNotFound
  | some n => .ok n

/-- Mirror of `Graph::degree_in(key)`: throws when `key` is not a node, else counts
the map entries whose node's edge map contains `key`. -/
def degree_in (g : Graph Key Value Weight) (key : Key) : GResult Nat :=
  match umapFind g.m_umap key with
  | none => .error keyNotFound
  | some _ =>
    .ok (g.m_umap.countP (fun elem => (umapFind elem.2.m_edge key).isSome))

/-- Mirror of `Graph::degree_out(key)`: throws when `key` is not a node, else the
size of that node's edge map. -/
def degree_out (g : Graph Key Value Weight) (key : Key) : GResult Nat :=
  match umapFind g.m_umap key with
  | none => .error keyNotFound
  | some n => .ok n.m_edge.length

/-- Mirror of `Graph::loop(key)`: throws when `key` is not a node, else whether that
node's edge map contains `key` itself. -/
def loop (g : Graph Key Value Weight) (key : Key) : GResult Bool :=
  match umapFind g.m_umap key with
  | none => .error keyNotFound
  | some n => .ok (umapFind n.m_edge key).isSome

/-- Mirror of `Graph::insert_node(key, value)`: `m_umap.insert({key, Node{value}})`.
Returns the updated graph, the node entry the iterator points at, and the
success flag. -/
def insert_node (g : Graph Key Value Weight) (key : Key) (value : Value) :
    Graph Key Value Weight × Node Key Value Weight × Bool :=
  let r := umapInsert g.m_umap key (Node.ofValue value)
  (⟨r.1⟩, r.2)

/-- Mirror of `Graph::insert_or_assign_node(key, value)`:
`m_umap.insert_or_assign(key, Node{value})`. -/
def insert_or_assign_node (g : Graph Key Value Weight) (key : Key)
    (value : Value) :
    Graph Key Value Weight × Node Key Value Weight × Bool :=
  let r := umapInsertOrAssign g.m_umap key (Node.ofValue value)
  (⟨r.1⟩, r.2)

/-- Mirror of `Graph::insert_edge(end_points, weight)`: looks up both endpoints in
`m_umap`, throws if either is absent, then delegates to the source node's
`insert_edge`; the in-place mutation through the iterator becomes
replacing the node stored at the source key. -/
def insert_edge (g : Graph Key Value Weight) (end_points : Key × Key)
    (weight : Weight) : GResult (Graph Key Value Weight × Weight × Bool) :=
  match umapFind g.m_umap end_points.1 with
  | none => .error keyNotFound
  | some first =>
    match umapFind g.m_umap end_points.2 with
    | none => .error keyNotFound
    | some _ =>
      let r := first.insert_edge end_points.2 weight
      .ok (⟨umapReplace g.m_umap end_points.1 r.1⟩, r.2)

/-- Mirror of `Graph::insert_or_assign_edge(end_points, weight)`: looks up only the
source endpoint, throws if it is absent, then delegates to that node's
`insert_or_assign_edge`. -/
def insert_or_assign_edge (g : Graph Key Value Weight)
    (end_points : Key × Key) (weight : Weight) :
    GResult (Graph Key Value Weight × Weight × Bool) :=
  match umapFind g.m_umap end_points.1 with
  | none => .error keyNotFound
  | some node =>
    let r := node.insert_or_assign_edge end_points.2 weight
    .ok (⟨umapReplace g.m_umap end_points.1 r.1⟩, r.2)

/-- Copy construction / copy assignment: `m_umap = graph.m_umap`, the
map's deep value copy. -/
def copy (g : Graph Key Value Weight) : Graph Key Value Weight := ⟨g.m_umap⟩

/-- Member `Graph::swap(graph)`: `m_umap.swap(graph.m_umap)`; returns the
two graphs' states after the exchange. -/
def swap (g other : Graph Key Value Weight) :
    Graph Key Value Weight × Graph Key Value Weight :=
  (⟨other.m_umap⟩, ⟨g.m_umap⟩)

/-- Move construction `Graph(Graph&& graph) { swap(graph); }`: the new
graph is default-constructed empty and then swapped with the source.
Returns (constructed graph, moved-from source). -/
def moveConstruct (g : Graph Key Value Weight) :
    Graph Key Value Weight × Graph Key Value Weight :=
  let fresh : Graph Key Value Weight := ⟨[]⟩
  fresh.swap g

/-- Move assignment `operator=(Graph&& graph) { swap(graph); }`: the
target swaps with the source. Returns (new target state, moved-from
source state). -/
def moveAssign (target source : Graph Key Value Weight) :
    Graph Key Value Weight × Graph Key Value Weight :=
  target.swap source

end Graph

/-- Namespace-scope `graph::swap(graph1, graph2)`: both parameters are
taken BY VALUE, so the callee copy-constructs locals from the arguments
and member-swaps those locals; the caller's two graphs are untouched.
Returns (caller-visible pair after the call, final states of the locals). -/
def free_swap {Key Value Weight : Type} [DecidableEq Key]
    (graph1 graph2 : Graph Key Value Weight) :
    (Graph Key Value Weight × Graph Key Value Weight) ×
      (Graph Key Value Weight × Graph Key Value Weight) :=
  let local1 := graph1.copy
  let local2 := graph2.copy
  ((graph1, graph2), local1.swap local2)

/-- The spec's degree-consistency scenario, nodes A=0, B=1, C=2. -/
def demoNodes : Graph Nat Nat Nat :=
  ((((Graph.mk []).insert_node 0 10).1.insert_node 1 11).1.insert_node 2 12).1

/-- Scenario edges A→B weight 5, A→C weight 2, B→C weight 1, built through
`Graph::insert_edge`. -/
def demoBuild : GResult (Graph Nat Nat Nat) := do
  let r1 ← demoNodes.insert_edge (0, 1) 5
  let r2 ← r1.1.insert_edge (0, 2) 2
  let r3 ← r2.1.insert_edge (1, 2) 1
  pure r3.1

/-- The five degree/loop queries of the scenario, in the spec's order. -/
def demoQueries : GResult (Nat × Nat × Nat × Nat × Bool) := do
  let g ← demoBuild
  let a ← g.degree_out 0
  let b ← g.degree_out 2
  let c ← g.degree_in 2
  let d ← g.degree_in 0
  let e ← g.loop 0
  pure (a, b, c, d, e)

section MapLemmas

variable {Key : Type} [DecidableEq Key] {A : Type}

theorem umapFind_append_self (m : List (Key × A)) (key : Key) (a : A)
    (h : umapFind m key = none) :
    umapFind (m ++ [(key, a)]) key = some a := by
  induction m with
  | nil => simp [umapFind]
  | cons p rest ih =>
    obtain ⟨k, b⟩ := p
    by_cases hk : k = key
    · simp [umapFind, hk] at h
    · simp only [umapFind, hk, if_false, List.cons_append] at h ⊢
      simp [umapFind, hk] at h ⊢
      exact ih h

theorem umapReplace_self (m : List (Key × A)) (key : Key) (a : A)
    (h : umapFind m key = some a) :
    umapReplace m key a = m := by
  induction m with
  | nil => simp [umapFind] at h
  | cons p rest ih =>
    obtain ⟨k, b⟩ := p
    by_cases hk : k = key
    · subst hk
      simp [umapFind] at h
      simp [umapReplace, h]
    · simp [umapFind, hk] at h
      simp [umapReplace, hk, ih h]

theorem umapFind_umapReplace_self (m : List (Key × A)) (key : Key) (a b : A)
    (h : umapFind m key = some a) :
    umapFind (umapReplace m key b) key = some b := by
  induction m with
  | nil => simp [umapFind] at h
  | cons p rest ih =>
    obtain ⟨k, c⟩ := p
    by_cases hk : k = key
    · simp [umapReplace, umapFind, hk]
    · simp [umapFind, hk] at h
      simp [umapReplace, umapFind, hk, ih h]

theorem umapFind_umapInsertOrAssign_self (m : List (Key × A)) (key : Key)
    (a : A) :
    umapFind (umapInsertOrAssign m key a).1 key = some a := by
  unfold umapInsertOrAssign
  cases h : umapFind m key with
  | none => simpa using umapFind_append_self m key a h
  | some c => simpa using umapFind_umapReplace_self m key c a h

theorem length_umapInsert_absent (m : List (Key × A)) (key : Key) (a : A)
    (h : umapFind m key = none) :
    (umapInsert m key a).1.length = m.length + 1 := by
  simp [umapInsert, h]

theorem umapInsert_present (m : List (Key × A)) (key : Key) (a b : A)
    (h : umapFind m key = some b) :
    umapInsert m key a = (m, b, false) := by
  simp [umapInsert, h]

theorem umapInsert_absent (m : List (Key × A)) (key : Key) (a : A)
    (h : umapFind m key = none) :
    umapInsert m key a = (m ++ [(key, a)], a, true) := by
  simp [umapInsert, h]

end MapLemmas

section Claims

variable {Key Value Weight : Type} [DecidableEq Key]

/-- C4: for every graph and key, each of `at`, `degree_in`, `degree_out`
and `loop` raises `KeyNotFound` exactly when the key has no node entry;
when the key is present they return normally. -/
theorem missing_key_raises (g : Graph Key Value Weight) (key : Key) :
    (throws (g.at_key key) ↔ umapFind g.m_umap key = none)
    ∧ (throws (g.degree_in key) ↔ umapFind g.m_umap key = none)
    ∧ (throws (g.degree_out key) ↔ umapFind g.m_umap key = none)
    ∧ (throws (g.loop key) ↔ umapFind g.m_umap key = none) := by
  refine ⟨?_, ?_, ?_, ?_⟩ <;>
    cases h : umapFind g.m_umap key <;>
      simp [Graph.at_key, Graph.degree_in, Graph.degree_out, Graph.loop,
        throws, h]

/-- C4 witness: on the one-node graph, the four operations throw at the
absent key 1 and none of them throws at the present key 0. -/
theorem missing_key_raises_witness :
    (throws ((Graph.mk [(0, Node.ofValue 10)] : Graph Nat Nat Nat).at_key 1)
      ∧ ¬ throws ((Graph.mk [(0, Node.ofValue 10)] :
          Graph Nat Nat Nat).degree_in 0)) :=
  ⟨(missing_key_raises (Graph.mk [(0, Node.ofValue 10)]) 1).1.mpr (by decide),
   fun h => by
    have := (missing_key_raises
      (Graph.mk [(0, Node.ofValue 10)] : Graph Nat Nat Nat) 0).2.1.mp h
    simp [umapFind, Node.ofValue] at this⟩

/-- C5: at a present key, `degree_out` is the node's edge count,
`degree_in` is the number of map entries whose node has an edge targeting
the key, and `loop` is whether the node has an edge to the key itself;
and in the scenario graph (nodes A=0, B=1, C=2 with edges A→B weight 5,
A→C weight 2, B→C weight 1) the queries give
degree_out(A)=2, degree_out(C)=0, degree_in(C)=2, degree_in(A)=0,
loop(A)=false. -/
theorem degree_loop_spec :
    (∀ (g : Graph Key Value Weight) (key : Key) (n : Node Key Value Weight),
      umapFind g.m_umap key = some n →
        g.degree_out key = .ok n.m_edge.length
        ∧ g.degree_in key =
            .ok (g.m_umap.filter
              (fun elem => (umapFind elem.2.m_edge key).isSome)).length
        ∧ g.loop key = .ok (umapFind n.m_edge key).isSome)
    ∧ demoQueries = .ok (2, 0, 2, 0, false) := by
  constructor
  · intro g key n h
    refine ⟨?_, ?_, ?_⟩ <;>
      simp [Graph.degree_out, Graph.degree_in, Graph.loop, h,
        List.countP_eq_length_filter]
  · decide

/-- C5 witness: the per-key part applied to the scenario graph at key 0. -/
theorem degree_loop_spec_witness :
    (Graph.mk [(0, Node.mk 10 [(1, 5), (2, 2)]), (1, Node.mk 11 [(2, 1)]),
      (2, Node.mk 12 [])] : Graph Nat Nat Nat).degree_out 0 = .ok 2 :=
  ((degree_loop_spec.1 _ 0 (Node.mk 10 [(1, 5), (2, 2)]) (by decide)).1).trans
    (by decide)

/-- C6: `insert_or_assign_node(key, v2)` stores the fresh node
`Node{v2}` (so `at(key)` then sees value `v2` and an empty edge map: any
previous edges are discarded), the returned entry is that fresh node, and
the flag is true exactly when the key was absent before. -/
theorem insert_or_assign_node_spec (g : Graph Key Value Weight) (key : Key)
    (v2 : Value) :
    ((g.insert_or_assign_node key v2).1.at_key key = .ok (Node.ofValue v2))
    ∧ ((g.insert_or_assign_node key v2).2.1 = Node.ofValue v2)
    ∧ ((g.insert_or_assign_node key v2).2.2 = true
        ↔ umapFind g.m_umap key = none) := by
  refine ⟨?_, ?_, ?_⟩
  · have h := umapFind_umapInsertOrAssign_self g.m_umap key
      (Node.ofValue v2 : Node Key Value Weight)
    simp [Graph.insert_or_assign_node, Graph.at_key, h]
  · cases h : umapFind g.m_umap key <;>
      simp [Graph.insert_or_assign_node, umapInsertOrAssign, h]
  · cases h : umapFind g.m_umap key <;>
      simp [Graph.insert_or_assign_node, umapInsertOrAssign, h]

/-- C6 witness: overwriting key 0 (which has value 10 and an edge) yields
value 99, no edges, and flag false. -/
theorem insert_or_assign_node_spec_witness :
    ((Graph.mk [(0, Node.mk 10 [(0, 7)])] :
        Graph Nat Nat Nat).insert_or_assign_node 0 99).1.at_key 0 =
      .ok (Node.mk 99 []) :=
  (insert_or_assign_node_spec
    (Graph.mk [(0, Node.mk 10 [(0, 7)])] : Graph Nat Nat Nat) 0 99).1

/-- C7: when `key` is absent, `insert_node(key, v)` succeeds and `find`
then returns an entry whose value is `v`; a second `insert_node(key, v2)`
reports success false and leaves the graph (hence the stored value)
unchanged. -/
theorem insert_node_find_roundtrip (g : Graph Key Value Weight) (key : Key)
    (v v2 : Value) (habs : umapFind g.m_umap key = none) :
    ((g.insert_node key v).2.2 = true)
    ∧ (∃ n, (g.insert_node key v).1.find key = some n ∧ n.getvalue = v)
    ∧ (((g.insert_node key v).1.insert_node key v2).2.2 = false)
    ∧ (((g.insert_node key v).1.insert_node key v2).1 =
        (g.insert_node key v).1)
    ∧ (((g.insert_node key v).1.insert_node key v2).1.find key =
        some (Node.ofValue v)) := by
  have hfound : umapFind (g.m_umap ++ [(key, Node.ofValue v)]) key =
      some (Node.ofValue v) :=
    umapFind_append_self g.m_umap key _ habs
  have h1 : g.insert_node key v =
      (⟨g.m_umap ++ [(key, Node.ofValue v)]⟩, Node.ofValue v, true) := by
    simp [Graph.insert_node, umapInsert, habs]
  have h2 : (⟨g.m_umap ++ [(key, Node.ofValue v)]⟩ :
      Graph Key Value Weight).insert_node key v2 =
      (⟨g.m_umap ++ [(key, Node.ofValue v)]⟩, Node.ofValue v, false) := by
    simp [Graph.insert_node, umapInsert, hfound]
  refine ⟨?_, ⟨Node.ofValue v, ?_, rfl⟩, ?_, ?_, ?_⟩ <;>
    simp [h1, h2, Graph.find, hfound]

/-- C7 witness: inserting key 1 with value 42 into the one-node graph,
then re-inserting with 43, keeps value 42 with flag false. -/
theorem insert_node_find_roundtrip_witness :
    (((Graph.mk [(0, Node.ofValue 10)] :
        Graph Nat Nat Nat).insert_node 1 42).1.insert_node 1 43).1.find 1 =
      some (Node.ofValue 42) :=
  (insert_node_find_roundtrip
    (Graph.mk [(0, Node.ofValue 10)] : Graph Nat Nat Nat) 1 42 43
    (by decide)).2.2.2.2

/-- C1: `Graph::insert_edge((s, t), w)` throws `KeyNotFound` when either
endpoint is absent; with both present it delegates to the source node's
`insert_edge(t, w)`; when the edge already exists the flag is false and
the graph (including the existing edge) is unmodified; when it does not,
the edge is inserted with weight `w` and the flag is true. -/
theorem insert_edge_spec (g : Graph Key Value Weight) (s t : Key)
    (w : Weight) :
    ((umapFind g.m_umap s = none ∨ umapFind g.m_umap t = none) →
      g.insert_edge (s, t) w = .error keyNotFound)
    ∧ (∀ ns, umapFind g.m_umap s = some ns →
        (umapFind g.m_umap t).isSome = true →
        g.insert_edge (s, t) w =
          .ok (⟨umapReplace g.m_umap s (ns.insert_edge t w).1⟩,
            (ns.insert_edge t w).2))
    ∧ (∀ ns w0, umapFind g.m_umap s = some ns →
        (umapFind g.m_umap t).isSome = true →
        umapFind ns.m_edge t = some w0 →
        g.insert_edge (s, t) w = .ok (g, w0, false))
    ∧ (∀ ns, umapFind g.m_umap s = some ns →
        (umapFind g.m_umap t).isSome = true →
        umapFind ns.m_edge t = none →
        ∃ g', g.insert_edge (s, t) w = .ok (g', w, true)
          ∧ umapFind g'.m_umap s =
              some ⟨ns.m_value, ns.m_edge ++ [(t, w)]⟩) := by
  refine ⟨?_, ?_, ?_, ?_⟩
  · rintro (hs | ht)
    · simp [Graph.insert_edge, hs]
    · cases hs : umapFind g.m_umap s with
      | none => simp [Graph.insert_edge, hs]
      | some ns => simp [Graph.insert_edge, hs, ht]
  · intro ns hs ht
    cases htt : umapFind g.m_umap t with
    | none => rw [htt] at ht; simp at ht
    | some nt => simp [Graph.insert_edge, hs, htt]
  · intro ns w0 hs ht he
    cases htt : umapFind g.m_umap t with
    | none => rw [htt] at ht; simp at ht
    | some nt =>
      have hnode : ns.insert_edge t w = (ns, w0, false) := by
        unfold Node.insert_edge
        rw [umapInsert_present ns.m_edge t w w0 he]
      simp [Graph.insert_edge, hs, htt, hnode,
        umapReplace_self g.m_umap s ns hs]
  · intro ns hs ht he
    cases htt : umapFind g.m_umap t with
    | none => rw [htt] at ht; simp at ht
    | some nt =>
      have hnode : ns.insert_edge t w =
          (⟨ns.m_value, ns.m_edge ++ [(t, w)]⟩, w, true) := by
        unfold Node.insert_edge
        rw [umapInsert_absent ns.m_edge t w he]
      refine ⟨⟨umapReplace g.m_umap s ⟨ns.m_value, ns.m_edge ++ [(t, w)]⟩⟩,
        ?_, ?_⟩
      · simp [Graph.insert_edge, hs, htt, hnode]
      · exact umapFind_umapReplace_self g.m_umap s ns _ hs

/-- C1 witness: on a graph whose node 0 already has the self-edge (0, 7),
re-inserting edge (0, 0) with weight 9 returns flag false and leaves the
graph unchanged. -/
theorem insert_edge_spec_witness :
    (Graph.mk [(0, Node.mk 10 [(0, 7)])] :
        Graph Nat Nat Nat).insert_edge (0, 0) 9 =
      .ok (Graph.mk [(0, Node.mk 10 [(0, 7)])], 7, false) :=
  (insert_edge_spec (Graph.mk [(0, Node.mk 10 [(0, 7)])] :
    Graph Nat Nat Nat) 0 0 9).2.2.1 (Node.mk 10 [(0, 7)]) 7 (by decide)
    (by decide) (by decide)

/-- C2 counterexample: in the one-node graph holding only key 0, the
source 0 is present, the target 1 is absent, and `insert_edge((0, 1), 1)`
does raise `KeyNotFound` — refuting the claim that a missing target never
causes `insert_edge` to throw. -/
theorem insert_edge_missing_target_cex :
    (umapFind (Graph.mk [(0, Node.ofValue 10)] :
        Graph Nat Nat Nat).m_umap 0).isSome = true
    ∧ umapFind (Graph.mk [(0, Node.ofValue 10)] :
        Graph Nat Nat Nat).m_umap 1 = none
    ∧ (Graph.mk [(0, Node.ofValue 10)] :
        Graph Nat Nat Nat).insert_edge (0, 1) 1 = .error keyNotFound := by
  decide

/-- C2 amended: `Graph::insert_edge` looks up BOTH endpoint keys and
raises `KeyNotFound` whenever the target is absent, even with the source
present; the operation that leaves the target unvalidated is
`insert_or_assign_edge`, which succeeds in that situation. -/
theorem insert_edge_checks_target (g : Graph Key Value Weight) (s t : Key)
    (w : Weight) (hs : (umapFind g.m_umap s).isSome = true)
    (ht : umapFind g.m_umap t = none) :
    g.insert_edge (s, t) w = .error keyNotFound
    ∧ ¬ throws (g.insert_or_assign_edge (s, t) w) := by
  cases hss : umapFind g.m_umap s with
  | none => rw [hss] at hs; simp at hs
  | some ns =>
    constructor
    · simp [Graph.insert_edge, hss, ht]
    · simp [Graph.insert_or_assign_edge, hss, throws]

/-- C2 amended witness: the counterexample graph, via the theorem. -/
theorem insert_edge_checks_target_witness :
    (Graph.mk [(0, Node.ofValue 10)] :
        Graph Nat Nat Nat).insert_edge (0, 1) 1 = .error keyNotFound :=
  (insert_edge_checks_target (Graph.mk [(0, Node.ofValue 10)] :
    Graph Nat Nat Nat) 0 1 1 (by decide) (by decide)).1

/-- C3: `Graph::insert_or_assign_edge((s, t), w)` throws `KeyNotFound`
exactly when the source is absent (the target is never looked up); with
the source present it delegates to the source node's
`insert_or_assign_edge(t, w)`, after which the edge to `t` holds weight
`w`, and the flag is true exactly when the edge did not exist before. -/
theorem insert_or_assign_edge_spec (g : Graph Key Value Weight) (s t : Key)
    (w : Weight) :
    (throws (g.insert_or_assign_edge (s, t) w)
      ↔ umapFind g.m_umap s = none)
    ∧ (∀ n, umapFind g.m_umap s = some n →
        g.insert_or_assign_edge (s, t) w =
          .ok (⟨umapReplace g.m_umap s (n.insert_or_assign_edge t w).1⟩,
            (n.insert_or_assign_edge t w).2)
        ∧ umapFind (n.insert_or_assign_edge t w).1.m_edge t = some w
        ∧ ((n.insert_or_assign_edge t w).2.2 = true
            ↔ umapFind n.m_edge t = none)) := by
  constructor
  · cases hs : umapFind g.m_umap s with
    | none => simp [Graph.insert_or_assign_edge, hs, throws]
    | some n => simp [Graph.insert_or_assign_edge, hs, throws]
  · intro n hs
    refine ⟨?_, ?_, ?_⟩
    · simp [Graph.insert_or_assign_edge, hs]
    · have := umapFind_umapInsertOrAssign_self n.m_edge t w
      simpa [Node.insert_or_assign_edge] using this
    · cases he : umapFind n.m_edge t with
      | none => simp [Node.insert_or_assign_edge, umapInsertOrAssign, he]
      | some w0 => simp [Node.insert_or_assign_edge, umapInsertOrAssign, he]

/-- C3 witness: with only node 0 present and target 1 absent,
`insert_or_assign_edge((0, 1), 3)` succeeds with flag true, and the
source-absent case (source 5) throws. -/
theorem insert_or_assign_edge_spec_witness :
    ((Graph.mk [(0, Node.ofValue 10)] :
        Graph Nat Nat Nat).insert_or_assign_edge (0, 1) 3 =
      .ok (Graph.mk [(0, Node.mk 10 [(1, 3)])], 3, true))
    ∧ throws ((Graph.mk [(0, Node.ofValue 10)] :
        Graph Nat Nat Nat).insert_or_assign_edge (5, 1) 3) :=
  ⟨((insert_or_assign_edge_spec (Graph.mk [(0, Node.ofValue 10)] :
      Graph Nat Nat Nat) 0 1 3).2 (Node.ofValue 10) (by decide)).1.trans
      (by decide),
   (insert_or_assign_edge_spec (Graph.mk [(0, Node.ofValue 10)] :
      Graph Nat Nat Nat) 5 1 3).1.mpr (by decide)⟩

/-- C8 counterexample: move-assigning a one-node source onto a one-node
target leaves the moved-from source holding the target's previous node,
so it is NOT empty — refuting the source-left-empty contract for move
assignment. -/
theorem move_assign_source_not_empty_cex :
    (Graph.moveAssign (Graph.mk [(1, Node.ofValue 5)] : Graph Nat Nat Nat)
      (Graph.mk [(0, Node.ofValue 4)])).2.empty = false := by
  decide

omit [DecidableEq Key] in
/-- C8 amended: move construction builds the new graph by swapping a
default-constructed (empty) graph with the source, so the new graph holds
all of the source's nodes and edges and the moved-from source is left
empty; move assignment swaps with the target's previous state, so the
moved-from source receives that previous state and is left empty only
when the target was empty. -/
theorem move_spec (g1 target source : Graph Key Value Weight) :
    ((Graph.moveConstruct g1).1 = g1
      ∧ (Graph.moveConstruct g1).2.empty = true)
    ∧ Graph.moveAssign target source = (source, target)
    ∧ (target.empty = true →
        (Graph.moveAssign target source).2.empty = true) := by
  refine ⟨⟨rfl, rfl⟩, rfl, ?_⟩
  intro h
  exact h

/-- C8 amended witness: move-assigning onto a default-constructed target
leaves the moved-from source empty. -/
theorem move_spec_witness :
    (Graph.moveAssign (Graph.mk [] : Graph Nat Nat Nat)
      (Graph.mk [(0, Node.ofValue 4)])).2.empty = true :=
  (move_spec (Graph.mk [] : Graph Nat Nat Nat) (Graph.mk [])
    (Graph.mk [(0, Node.ofValue 4)])).2.2 (by decide)

/-- C9: the free `graph::swap` takes both graphs by value, so the
caller-visible pair is unchanged by the call (only the callee's local
copies are exchanged), whereas the member `Graph::swap` really exchanges
the two node maps. -/
theorem free_swap_spec (g1 g2 : Graph Key Value Weight) :
    (free_swap g1 g2).1 = (g1, g2)
    ∧ Graph.swap g1 g2 = (g2, g1)
    ∧ (free_swap g1 g2).2 = (g2, g1) := by
  exact ⟨rfl, rfl, rfl⟩

/-- C9 witness: two concrete distinct graphs, via the theorem. -/
theorem free_swap_spec_witness :
    (free_swap (Graph.mk [(0, Node.ofValue 1)] : Graph Nat Nat Nat)
        (Graph.mk [])).1 =
      (Graph.mk [(0, Node.ofValue 1)], Graph.mk []) :=
  (free_swap_spec (Graph.mk [(0, Node.ofValue 1)] : Graph Nat Nat Nat)
    (Graph.mk [])).1

/-- C10: copying a graph reproduces its node map exactly, and inserting a
fresh node into the copy grows only the copy — the original still lacks
the key (so its size and nodes are unchanged). -/
theorem copy_independent_spec (g1 : Graph Key Value Weight) (key : Key)
    (v : Value) :
    g1.copy = g1
    ∧ (umapFind g1.m_umap key = none →
        ((g1.copy.insert_node key v).1.size = g1.size + 1
          ∧ (g1.copy.insert_node key v).1.find key = some (Node.ofValue v)
          ∧ g1.find key = none)) := by
  refine ⟨rfl, fun h => ⟨?_, ?_, h⟩⟩
  · simpa [Graph.insert_node, Graph.size, Graph.copy] using
      length_umapInsert_absent g1.m_umap key (Node.ofValue v) h
  · have := umapFind_append_self g1.m_umap key
      (Node.ofValue v : Node Key Value Weight) h
    simp [Graph.insert_node, Graph.find, Graph.copy, umapInsert, h, this]

/-- C10 witness: inserting key 1 into a copy of the one-node graph grows
the copy to size 2 while the original still lacks key 1. -/
theorem copy_independent_spec_witness :
    ((Graph.mk [(0, Node.ofValue 10)] :
        Graph Nat Nat Nat).copy.insert_node 1 42).1.size =
      (Graph.mk [(0, Node.ofValue 10)] : Graph Nat Nat Nat).size + 1 :=
  ((copy_independent_spec (Graph.mk [(0, Node.ofValue 10)] :
    Graph Nat Nat Nat) 1 42).2 (by decide)).1

end Claims

end GraphSpec
